import Mathlib

/-!
Verification development for the rc-sim repository (RiceCreekUAS/rc-sim).

The repository under study has two Python source files:
`src/lib/simulator.py` (class `Simulator`: `load`, `reset`, `trim_error`,
`trim`, `add_noise`, `update`) and `src/build_full_model.py` (the
dt-estimation and training-data passes over a flight log).

This file gives a shallow embedding of those routines over the reals and
proves/refutes the frozen specification claims about them.  Modules that
the simulator imports but that are not part of the given sources
(`lib/state_mgr.py`, `lib/quaternion.py`, `lib/constants.py`) are modelled
from the specification text; each such definition carries a doc comment
starting with "Modelled from the spec:".
-/

noncomputable section

open Real

/-- Modelled from the spec: `lib/constants.py` is not under `src/`; `d2r`
is the standard degrees-to-radians factor used as `25 * d2r` in
`Simulator.update`. -/
def d2r : ℝ := Real.pi / 180

/-- Modelled from the spec: sea-level air density used by the
StateManager's dynamic-pressure computation `qbar = 0.5 * rho * airspeed^2`
(`lib/state_mgr.py` is not under `src/`). -/
def rho : ℝ := 1.225

/-- Modelled from the spec: `lib/constants.py` is not under `src/`;
knots-to-m/s conversion used by the training pass. -/
def kt2mps : ℝ := 0.514444

/-- Dynamic pressure from airspeed, `qbar = 0.5 * rho * V^2`
(Modelled from the spec: `StateManager.set_airdata`). -/
def qbarOf (V : ℝ) : ℝ := 0.5 * rho * V ^ 2

/-- The `max_angle = 25 * d2r` clamp bound of `Simulator.update`. -/
def maxAngle : ℝ := 25 * d2r

/-- Python's `math.atan2`, case-split on the sign of the second argument. -/
def atan2 (y x : ℝ) : ℝ :=
  if 0 < x then Real.arctan (y / x)
  else if x < 0 then
    (if 0 ≤ y then Real.arctan (y / x) + Real.pi else Real.arctan (y / x) - Real.pi)
  else
    (if 0 < y then Real.pi / 2 else if y < 0 then -(Real.pi / 2) else 0)

/-- Sequential two-sided clamp, as written in `Simulator.update`:
`if v > l: v = l` then `if v < -l: v = -l`. -/
def clampAbs (l v : ℝ) : ℝ :=
  if v > l then l else if v < -l then -l else v

/-- Fallible real division: Python raises `ZeroDivisionError` on a zero
denominator, modelled as the `none` branch. -/
def divGuard (a b : ℝ) : Option ℝ :=
  if b = 0 then none else some (a / b)

/-- Quaternion as stored by the simulator (`self.ned2body`). -/
structure Quat where
  w : ℝ
  x : ℝ
  y : ℝ
  z : ℝ

/-- Squared norm of a quaternion. -/
def quadrance (q : Quat) : ℝ := q.w ^ 2 + q.x ^ 2 + q.y ^ 2 + q.z ^ 2

/-- Euclidean norm of a quaternion. -/
def qnorm (q : Quat) : ℝ := Real.sqrt (quadrance q)

/-- Modelled from the spec: `lib/quaternion.py` is not under `src/`;
Hamilton product used to compose the small-angle rotation with the
current orientation quaternion. -/
def qmul (a b : Quat) : Quat :=
  ⟨a.w * b.w - a.x * b.x - a.y * b.y - a.z * b.z,
   a.w * b.x + a.x * b.w + a.y * b.z - a.z * b.y,
   a.w * b.y - a.x * b.z + a.y * b.w + a.z * b.x,
   a.w * b.z + a.x * b.y - a.y * b.x + a.z * b.w⟩

/-- Scalar multiple of a quaternion. -/
def qscale (k : ℝ) (q : Quat) : Quat := ⟨k * q.w, k * q.x, k * q.y, k * q.z⟩

/-- Modelled from the spec: after composing the attitude quaternion with
the per-step rotation the result is renormalized ("compose it with the
current orientation quaternion, renormalize"). -/
def qnormalize (q : Quat) : Quat := qscale (1 / qnorm q) q

/-- Quaternion conjugate. -/
def qconj (q : Quat) : Quat := ⟨q.w, -q.x, -q.y, -q.z⟩

/-- Modelled from the spec: `lib/quaternion.py` is not under `src/`;
`eul2quat` builds the (unit) orientation quaternion from Euler angles,
standard aerospace ZYX convention with half angles. -/
def eul2quat (phi the psi : ℝ) : Quat :=
  let cr := Real.cos (phi / 2); let sr := Real.sin (phi / 2)
  let cp := Real.cos (the / 2); let sp := Real.sin (the / 2)
  let cy := Real.cos (psi / 2); let sy := Real.sin (psi / 2)
  ⟨cr * cp * cy + sr * sp * sy,
   sr * cp * cy - cr * sp * sy,
   cr * sp * cy + sr * cp * sy,
   cr * cp * sy - sr * sp * cy⟩

/-- Modelled from the spec: `quat2eul` extracts Euler angles from the
orientation quaternion, standard formulas. -/
def quat2eul (q : Quat) : ℝ × ℝ × ℝ :=
  (atan2 (2 * (q.w * q.x + q.y * q.z)) (1 - 2 * (q.x ^ 2 + q.y ^ 2)),
   Real.arcsin (2 * (q.w * q.y - q.z * q.x)),
   atan2 (2 * (q.w * q.z + q.x * q.y)) (1 - 2 * (q.y ^ 2 + q.z ^ 2)))

/-- Modelled from the spec: `quaternion.backTransform` rotates a
body-frame vector into the NED frame, by quaternion conjugation. -/
def qrot (q : Quat) (v : ℝ × ℝ × ℝ) : ℝ × ℝ × ℝ :=
  let t := qmul (qmul q ⟨0, v.1, v.2.1, v.2.2⟩) (qconj q)
  (t.x, t.y, t.z)

/-- One entry of the model file's `parameters` list:
`{name, type ("independent"|"dependent"), optional noise spectrum}`.
The noise spectrum is an ordered list of (frequency, amplitude) pairs.
(The statistics fields min/max/median/std are not used by the simulator
routines under study.) -/
structure Param where
  name : String
  type : String
  noise : Option (List (ℝ × ℝ))

/-- A loaded model: sample interval `dt`, ordered parameter list, and the
transition matrix `A` stored as a list of rows. -/
structure Model where
  dt : ℝ
  params : List Param
  A : List (List ℝ)

/-- Number of parameters typed `"dependent"`. -/
def depCount (params : List Param) : ℕ :=
  (params.filter (fun p => p.type == "dependent")).length

/-- Names of the dependent parameters, in file order; these are the keys
of the predicted dependent state (`StateManager.dep2dict`). -/
def depNames (m : Model) : List String :=
  (m.params.filter (fun p => p.type == "dependent")).map (fun p => p.name)

/-- `Simulator.load`: reads `dt` and the parameter list, counts dependent
rows, and reshapes the flattened row-major `A` to `rows x cols`
(`np.array(model["A"]).reshape(rows, cols)` raises on a size mismatch,
modelled as `none`). -/
def load (dt : ℝ) (params : List Param) (aflat : List ℝ) : Option Model :=
  let cols := params.length
  let rows := depCount params
  if aflat.length = rows * cols then
    some ⟨dt, params,
      (List.range rows).map (fun i =>
        (List.range cols).map (fun j => aflat.getD (i * cols + j) 0))⟩
  else none

/-- Dictionary lookup on a name-keyed list of reals (Python dict access,
`none` models a `KeyError`). -/
def lk (l : List (String × ℝ)) (k : String) : Option ℝ :=
  match l with
  | [] => none
  | (a, b) :: t => if a = k then some b else lk t k

/-- Dot product of two real lists (truncating zip, as `np.dot` on equal
lengths; all uses have equal lengths). -/
def dotList (a b : List ℝ) : ℝ := (List.zipWith (· * ·) a b).sum

/-- `A @ state`: matrix-vector product, one dot product per row. -/
def matVec (A : List (List ℝ)) (v : List ℝ) : List ℝ :=
  A.map (fun row => dotList row v)

/-- The phase array `np.random.rand(n) * 2 * pi`, with `rand` the stream of
uniform draws. -/
def drawPhases (rand : ℕ → ℝ) (n : ℕ) : List ℝ :=
  (List.range n).map (fun j => rand j * (2 * Real.pi))

/-- Inner loop of `Simulator.add_noise`: sum over the sinusoids of one
parameter's noise list, indexing the shared phase array by sinusoid
position `j`; an out-of-range index is the `none` branch. -/
def noiseSumGo (t : List ℝ) (time : ℝ) : ℕ → List (ℝ × ℝ) → Option ℝ
  | _, [] => some 0
  | j, pt :: rest =>
    match t.get? j with
    | none => none
    | some phase =>
      (noiseSumGo t time (j + 1) rest).map
        (fun s => Real.sin (phase + time * 2 * Real.pi * pt.1) * pt.2 + s)

/-- Sum of one parameter's noise sinusoids evaluated at `time` with the
shared phase array `t`. -/
def noiseSum (t : List ℝ) (time : ℝ) (pts : List (ℝ × ℝ)) : Option ℝ :=
  noiseSumGo t time 0 pts

/-- Outer loop of `Simulator.add_noise` over `(params[i], next[i])` pairs,
threading the lazily drawn shared phase array `trand`. -/
def addNoiseGo (rand : ℕ → ℝ) (time : ℝ) :
    Option (List ℝ) → List (Param × ℝ) → Option (Option (List ℝ) × List ℝ)
  | trand, [] => some (trand, [])
  | trand, (p, x) :: rest =>
    match p.noise with
    | none =>
      (addNoiseGo rand time trand rest).map (fun r => (r.1, x :: r.2))
    | some pts =>
      let t := trand.getD (drawPhases rand pts.length)
      match noiseSum t time pts with
      | none => none
      | some s =>
        (addNoiseGo rand time (some t) rest).map (fun r => (r.1, (x + s) :: r.2))

/-- `Simulator.add_noise`: for each index `i` of the predicted dependent
vector, if `params[i]` has a noise spectrum, add its sinusoid sum to
`next[i]`; the phase array `self.trand` is drawn once, lazily, at the
first noisy parameter encountered, sized to that parameter's noise list,
and shared by every parameter thereafter.  `none` models an uncaught
Python exception (phase index out of range, or `params[i]` out of range). -/
def addNoise (params : List Param) (rand : ℕ → ℝ) (time : ℝ)
    (trand : Option (List ℝ)) (next : List ℝ) : Option (Option (List ℝ) × List ℝ) :=
  if next.length ≤ params.length then
    addNoiseGo rand time trand (params.zip next)
  else none

/-- The simulator's mutable per-run state: the `Simulator` attributes set
by `reset`/`update`, merged with the StateManager fields the update loop
reads and writes (Modelled from the spec where `lib/state_mgr.py` is
concerned: airspeed/qbar via `set_airdata`, body velocity via
`set_body_velocity`, flow angles recomputed by
`compute_body_frame_values`). -/
structure SimState where
  airspeed_mps : ℝ
  bvx : ℝ
  bvy : ℝ
  bvz : ℝ
  alpha : ℝ
  beta : ℝ
  p : ℝ
  q : ℝ
  r : ℝ
  ax : ℝ
  ay : ℝ
  az : ℝ
  phi_rad : ℝ
  the_rad : ℝ
  psi_rad : ℝ
  ned2body : Quat
  pos_ned : ℝ × ℝ × ℝ
  vel_ned : ℝ × ℝ × ℝ
  time : ℝ
  trand : Option (List ℝ)
  data : List (List ℝ)
  sm_airspeed : ℝ
  sm_qbar : ℝ
  throttle : ℝ
  aileron : ℝ
  elevator : ℝ
  rudder : ℝ
  sm_alpha : ℝ
  sm_beta : ℝ
  sm_bvx : ℝ
  sm_bvy : ℝ
  sm_bvz : ℝ

/-- Modelled from the spec: `StateManager.gen_state_vector` emits one
scalar per parameter name; control-surface and flow-angle entries are
qbar-scaled nonlinear transforms, `airspeed` is raw m/s, gyro entries are
the raw rates.  Entries derived by `compute_body_frame_values` that no
claim depends on (forces, body-frame gravity) are summarized as 0. -/
def genVal (s : SimState) (name : String) : ℝ :=
  if name = "airspeed" then s.sm_airspeed
  else if name = "bvx" then s.sm_bvx
  else if name = "bvy" then s.sm_bvy
  else if name = "bvz" then s.sm_bvz
  else if name = "p" then s.p
  else if name = "q" then s.q
  else if name = "r" then s.r
  else if name = "sin(alpha)" then Real.sin s.sm_alpha * s.sm_qbar
  else if name = "sin(beta)" then Real.sin s.sm_beta * s.sm_qbar
  else if name = "abs(sin(beta))" then |Real.sin s.sm_beta| * s.sm_qbar
  else if name = "aileron" then s.aileron * s.sm_qbar
  else if name = "abs(aileron)" then |s.aileron| * s.sm_qbar
  else if name = "elevator" then s.elevator * s.sm_qbar
  else if name = "rudder" then s.rudder * s.sm_qbar
  else if name = "abs(rudder)" then |s.rudder| * s.sm_qbar
  else if name = "throttle" then s.throttle
  else 0

/-- The state vector handed to `A`, one entry per parameter in file order. -/
def genStateVector (params : List Param) (s : SimState) : List ℝ :=
  params.map (fun p => genVal s p.name)

/-- The three mutually exclusive ways `Simulator.update` resolves the next
body-frame velocity. -/
inductive VBranch where
  | accelBased
  | velocityBased
  | trigBased
deriving DecidableEq

/-- The branch `Simulator.update` takes, determined (as in the source) by
which keys are present in the predicted dependent dict:
`if "bax" in result and "airspeed" in result: ... elif "bvx" in result:
... elif "sin(alpha)" in result: ...` — `none` when no branch applies. -/
def branchOf (m : Model) : Option VBranch :=
  if (depNames m).contains "bax" && (depNames m).contains "airspeed" then
    some VBranch.accelBased
  else if (depNames m).contains "bvx" then some VBranch.velocityBased
  else if (depNames m).contains "sin(alpha)" then some VBranch.trigBased
  else none

/-- Line 177-183 of `simulator.py`: the resolved scalar airspeed — the
predicted `airspeed` output if present, otherwise the Euclidean norm of
the predicted body-velocity outputs. -/
def resolveAirspeed (result : List (String × ℝ)) : Option ℝ :=
  match lk result "airspeed" with
  | some v => some v
  | none =>
    match lk result "bvx", lk result "bvy", lk result "bvz" with
    | some x, some y, some z => some (Real.sqrt (x ^ 2 + y ^ 2 + z ^ 2))
    | _, _, _ => none

/-- The velocity-related quantities produced by the branch bodies of
`Simulator.update`: the simulator body velocity, the StateManager body
velocity, and the `self.alpha`/`self.beta` attributes. -/
structure VelRes where
  bvx : ℝ
  bvy : ℝ
  bvz : ℝ
  smbvx : ℝ
  smbvy : ℝ
  smbvz : ℝ
  alphaSelf : ℝ
  betaSelf : ℝ

/-- The branch bodies of `Simulator.update` (lines 186-243).  Branch (a)
integrates acceleration, floors `bvx` at 0.1, clamps the lateral and
vertical velocity ratios to 0.1, and rescales to the resolved airspeed;
branch (b) takes the predicted body velocity directly; branch (c) divides
the `sin(alpha)`/`sin(beta)` outputs by `qbar` (fallible at `qbar = 0`),
clamps into arcsin's domain, clamps the resulting angles to `±25°`, and
reconstructs body velocity from the airspeed and the angles.  When no
branch applies the velocities are carried over unchanged. -/
def resolveVelocity (m : Model) (s : SimState) (result : List (String × ℝ))
    (V qbar : ℝ) : Option VelRes :=
  match branchOf m with
  | some VBranch.accelBased =>
    match lk result "bax", lk result "bay", lk result "baz" with
    | some bax, some bay, some baz =>
      let bvx0 := s.bvx + bax * m.dt
      let bvy0 := s.bvy + bay * m.dt
      let bvz0 := s.bvz + baz * m.dt
      let bvx1 := if bvx0 < 0.1 then 0.1 else bvx0
      let bvy1 := if |bvy0 / bvx1| > 0.1 then Real.sign bvy0 * |bvx1| * 0.1 else bvy0
      let bvz1 := if |bvz0 / bvx1| > 0.1 then Real.sign bvz0 * |bvx1| * 0.1 else bvz0
      let k := V / Real.sqrt (bvx1 ^ 2 + bvy1 ^ 2 + bvz1 ^ 2)
      some ⟨bvx1 * k, bvy1 * k, bvz1 * k, bvx1 * k, bvy1 * k, bvz1 * k,
            atan2 (bvz1 * k) (bvx1 * k), atan2 (-(bvy1 * k)) (bvx1 * k)⟩
    | _, _, _ => none
  | some VBranch.velocityBased =>
    match lk result "bvx", lk result "bvy", lk result "bvz" with
    | some vx, some vy, some vz =>
      some ⟨vx, vy, vz, vx, vy, vz, atan2 vz vx, atan2 (-vy) vx⟩
    | _, _, _ => none
  | some VBranch.trigBased =>
    match lk result "sin(alpha)", lk result "sin(beta)" with
    | some sa, some sb =>
      match divGuard sa qbar, divGuard sb qbar with
      | some sa1, some sb1 =>
        let al := clampAbs maxAngle (Real.arcsin (clampAbs 1 sa1))
        let be := clampAbs maxAngle (Real.arcsin (clampAbs 1 sb1))
        some ⟨Real.cos al * V, Real.sin be * V, Real.sin al * V,
              Real.cos al * V, Real.sin be * V, Real.sin al * V, s.alpha, s.beta⟩
      | _, _ => none
    | _, _ => none
  | none => some ⟨s.bvx, s.bvy, s.bvz, s.sm_bvx, s.sm_bvy, s.sm_bvz, s.alpha, s.beta⟩

/-- Lines 245-290 of `simulator.py`: gyros, accels, attitude integration
(small-angle rotation composed with the orientation quaternion and
renormalized — quaternion composition modelled from the spec since
`lib/quaternion.py` is not under `src/`), flow angles recomputed by
`compute_body_frame_values`, NED velocity and position integration, and
the appended trajectory sample
`[time, airspeed, throttle, aileron, elevator, rudder, phi, the, psi,
alpha, beta, p, q, r] ++ pos_ned ++ vel_ned`. -/
def finishUpdate (m : Model) (s : SimState) (trand1 : Option (List ℝ)) (V : ℝ)
    (vr : VelRes) (p q r ax ay az : ℝ) : SimState :=
  let rot := eul2quat (p * m.dt) (q * m.dt) (r * m.dt)
  let q2 := qnormalize (qmul s.ned2body rot)
  let eul := quat2eul q2
  let smA := atan2 vr.smbvz vr.smbvx
  let smB := atan2 (-vr.smbvy) vr.smbvx
  let vned := qrot q2 (vr.bvx, vr.bvy, vr.bvz)
  let pos1 := (s.pos_ned.1 + vned.1 * m.dt,
               s.pos_ned.2.1 + vned.2.1 * m.dt,
               s.pos_ned.2.2 + vned.2.2 * m.dt)
  let row := [s.time, V, s.throttle, s.aileron, s.elevator, s.rudder,
              eul.1, eul.2.1, eul.2.2, smA, smB, p, q, r,
              pos1.1, pos1.2.1, pos1.2.2, vned.1, vned.2.1, vned.2.2]
  { airspeed_mps := V
    bvx := vr.bvx, bvy := vr.bvy, bvz := vr.bvz
    alpha := vr.alphaSelf, beta := vr.betaSelf
    p := p, q := q, r := r
    ax := ax, ay := ay, az := az
    phi_rad := eul.1, the_rad := eul.2.1, psi_rad := eul.2.2
    ned2body := q2
    pos_ned := pos1
    vel_ned := vned
    time := s.time + m.dt
    trand := trand1
    data := s.data ++ [row]
    sm_airspeed := V
    sm_qbar := qbarOf V
    throttle := s.throttle, aileron := s.aileron
    elevator := s.elevator, rudder := s.rudder
    sm_alpha := smA, sm_beta := smB
    sm_bvx := vr.smbvx, sm_bvy := vr.smbvy, sm_bvz := vr.smbvz }

/-- `Simulator.update`: build the state vector, predict `next = A @ state`,
inject noise, resolve airspeed and body velocity by the first applicable
branch, read the predicted rates (and accels if exposed), then integrate
attitude and position and append the trajectory sample.  `none` models an
uncaught Python exception (missing dict key, zero division). -/
def readAccels (s : SimState) (useResult : Bool) (result : List (String × ℝ)) :
    Option (ℝ × ℝ × ℝ) :=
  if useResult then
    match lk result "ax", lk result "ay", lk result "az" with
    | some ax, some ay, some az => some (ax, ay, az)
    | _, _, _ => none
  else some (s.ax, s.ay, s.az)

def update (m : Model) (rand : ℕ → ℝ) (s : SimState) : Option SimState :=
  (addNoise m.params rand s.time s.trand (matVec m.A (genStateVector m.params s))).bind
    fun nr =>
  (resolveAirspeed ((depNames m).zip nr.2)).bind fun V =>
  (resolveVelocity m s ((depNames m).zip nr.2) V (qbarOf V)).bind fun vr =>
  (lk ((depNames m).zip nr.2) "p").bind fun p =>
  (lk ((depNames m).zip nr.2) "q").bind fun q =>
  (lk ((depNames m).zip nr.2) "r").bind fun r =>
  (readAccels s ((depNames m).contains "ax") ((depNames m).zip nr.2)).bind fun acc =>
  some (finishUpdate m s nr.1 V vr p q r acc.1 acc.2.1 acc.2.2)

/-- The resolved airspeed of one `update` step on its own: predict,
inject noise, and apply the airspeed resolution of lines 177-183. -/
def resolveAirspeedM (m : Model) (rand : ℕ → ℝ) (s : SimState) : Option ℝ :=
  (addNoise m.params rand s.time s.trand (matVec m.A (genStateVector m.params s))).bind
    fun nr => resolveAirspeed ((depNames m).zip nr.2)

/-- `Simulator.reset`: the nominal initial condition — 10 m/s airdata,
half throttle, slightly nose-down elevator, level attitude, zero rates,
origin position, empty trajectory, no phase array drawn yet.
(`self.alpha`/`self.beta` and the StateManager flow angles are not
assigned by the source `reset`; their initial values are modelled as 0.) -/
def resetState : SimState :=
  { airspeed_mps := 0
    bvx := 0, bvy := 0, bvz := 0
    alpha := 0, beta := 0
    p := 0, q := 0, r := 0
    ax := 0, ay := 0, az := 0
    phi_rad := 0, the_rad := 0, psi_rad := 0
    ned2body := eul2quat 0 0 0
    pos_ned := (0, 0, 0)
    vel_ned := (10, 0, 0)
    time := 0
    trand := none
    data := []
    sm_airspeed := 10
    sm_qbar := qbarOf 10
    throttle := 0.5, aileron := 0, elevator := -0.1, rudder := 0
    sm_alpha := 0, sm_beta := 0
    sm_bvx := 10, sm_bvy := 0, sm_bvz := 0 }

/-- `n` update steps after `reset`. -/
def run (m : Model) (rand : ℕ → ℝ) : ℕ → Option SimState
  | 0 => some resetState
  | n + 1 => (run m rand n).bind (update m rand)

/-- A fixed random stream (never used by models without noise). -/
def defaultRand : ℕ → ℝ := fun _ => 0

/-- A loadable model whose only outputs are `airspeed`, `p`, `q`, `r`,
with `A` sending the 10 m/s reset airspeed to `-10`. -/
def M1 : Model :=
  { dt := 0.01
    params := [⟨"airspeed", "dependent", none⟩, ⟨"p", "dependent", none⟩,
               ⟨"q", "dependent", none⟩, ⟨"r", "dependent", none⟩]
    A := [[-1, 0, 0, 0], [0, 0, 0, 0], [0, 0, 0, 0], [0, 0, 0, 0]] }

/-- The state after one `update` of `M1` from `reset`. -/
def s1val : SimState :=
  { airspeed_mps := -10
    bvx := 0, bvy := 0, bvz := 0
    alpha := 0, beta := 0
    p := 0, q := 0, r := 0
    ax := 0, ay := 0, az := 0
    phi_rad := 0, the_rad := 0, psi_rad := 0
    ned2body := ⟨1, 0, 0, 0⟩
    pos_ned := (0, 0, 0)
    vel_ned := (0, 0, 0)
    time := 0.01
    trand := none
    data := [[0, -10, 0.5, 0, -0.1, 0, 0, 0, 0, 0, 0, 0, 0, 0, 0, 0, 0, 0, 0, 0]]
    sm_airspeed := -10
    sm_qbar := 61.25
    throttle := 0.5, aileron := 0, elevator := -0.1, rudder := 0
    sm_alpha := 0, sm_beta := 0
    sm_bvx := 10, sm_bvy := 0, sm_bvz := 0 }

/-- The flattened row-major `A` of `M1`, as it appears in a model file. -/
def aflatM1 : List ℝ := [-1, 0, 0, 0, 0, 0, 0, 0, 0, 0, 0, 0, 0, 0, 0, 0]

/-- A loadable model whose dependent outputs are the body velocities and
rates, with `A` predicting `bvx = 1`, `bvz = 1` from the reset state. -/
def M4 : Model :=
  { dt := 0.01
    params := [⟨"bvx", "dependent", none⟩, ⟨"bvy", "dependent", none⟩,
               ⟨"bvz", "dependent", none⟩, ⟨"p", "dependent", none⟩,
               ⟨"q", "dependent", none⟩, ⟨"r", "dependent", none⟩]
    A := [[0.1, 0, 0, 0, 0, 0], [0, 0, 0, 0, 0, 0], [0.1, 0, 0, 0, 0, 0],
          [0, 0, 0, 0, 0, 0], [0, 0, 0, 0, 0, 0], [0, 0, 0, 0, 0, 0]] }

/-- The flattened row-major `A` of `M4`. -/
def aflatM4 : List ℝ :=
  [0.1, 0, 0, 0, 0, 0,  0, 0, 0, 0, 0, 0,  0.1, 0, 0, 0, 0, 0,
   0, 0, 0, 0, 0, 0,  0, 0, 0, 0, 0, 0,  0, 0, 0, 0, 0, 0]

/-- The state after one `update` of `M4` from `reset`. -/
def s4val : SimState :=
  { airspeed_mps := Real.sqrt 2
    bvx := 1, bvy := 0, bvz := 1
    alpha := Real.pi / 4, beta := 0
    p := 0, q := 0, r := 0
    ax := 0, ay := 0, az := 0
    phi_rad := 0, the_rad := 0, psi_rad := 0
    ned2body := ⟨1, 0, 0, 0⟩
    pos_ned := (0.01, 0, 0.01)
    vel_ned := (1, 0, 1)
    time := 0.01
    trand := none
    data := [[0, Real.sqrt 2, 0.5, 0, -0.1, 0, 0, 0, 0, Real.pi / 4, 0, 0, 0, 0,
              0.01, 0, 0.01, 1, 0, 1]]
    sm_airspeed := Real.sqrt 2
    sm_qbar := qbarOf (Real.sqrt 2)
    throttle := 0.5, aileron := 0, elevator := -0.1, rudder := 0
    sm_alpha := Real.pi / 4, sm_beta := 0
    sm_bvx := 1, sm_bvy := 0, sm_bvz := 1 }

/-- A loadable trig-branch model: dependent outputs `airspeed, sin(alpha),
sin(beta), p, q, r`, with `A` reproducing the reset airspeed of 10 m/s and
predicting zero for everything else. -/
def M9p : Model :=
  { dt := 0.01
    params := [⟨"airspeed", "dependent", none⟩, ⟨"sin(alpha)", "dependent", none⟩,
               ⟨"sin(beta)", "dependent", none⟩, ⟨"p", "dependent", none⟩,
               ⟨"q", "dependent", none⟩, ⟨"r", "dependent", none⟩]
    A := [[1, 0, 0, 0, 0, 0], [0, 0, 0, 0, 0, 0], [0, 0, 0, 0, 0, 0],
          [0, 0, 0, 0, 0, 0], [0, 0, 0, 0, 0, 0], [0, 0, 0, 0, 0, 0]] }

/-- The state after one `update` of `M9p` from `reset`. -/
def s9val : SimState :=
  { airspeed_mps := 10
    bvx := 10, bvy := 0, bvz := 0
    alpha := 0, beta := 0
    p := 0, q := 0, r := 0
    ax := 0, ay := 0, az := 0
    phi_rad := 0, the_rad := 0, psi_rad := 0
    ned2body := ⟨1, 0, 0, 0⟩
    pos_ned := (0.1, 0, 0)
    vel_ned := (10, 0, 0)
    time := 0.01
    trand := none
    data := [[0, 10, 0.5, 0, -0.1, 0, 0, 0, 0, 0, 0, 0, 0, 0, 0.1, 0, 0, 10, 0, 0]]
    sm_airspeed := 10
    sm_qbar := qbarOf 10
    throttle := 0.5, aileron := 0, elevator := -0.1, rudder := 0
    sm_alpha := 0, sm_beta := 0
    sm_bvx := 10, sm_bvy := 0, sm_bvz := 0 }

/-- A loadable model exposing body-acceleration outputs but no direct
`airspeed` output (plus body velocities and rates). -/
def M5 : Model :=
  { dt := 0.01
    params := [⟨"bax", "dependent", none⟩, ⟨"bay", "dependent", none⟩,
               ⟨"baz", "dependent", none⟩, ⟨"bvx", "dependent", none⟩,
               ⟨"bvy", "dependent", none⟩, ⟨"bvz", "dependent", none⟩,
               ⟨"p", "dependent", none⟩, ⟨"q", "dependent", none⟩,
               ⟨"r", "dependent", none⟩]
    A := List.replicate 9 (List.replicate 9 (0 : ℝ)) }

/-- A trig-branch model whose transition matrix predicts everything as 0,
so the resolved airspeed of the first step is 0. -/
def M9z : Model :=
  { dt := 0.01
    params := [⟨"airspeed", "dependent", none⟩, ⟨"sin(alpha)", "dependent", none⟩,
               ⟨"sin(beta)", "dependent", none⟩, ⟨"p", "dependent", none⟩,
               ⟨"q", "dependent", none⟩, ⟨"r", "dependent", none⟩]
    A := List.replicate 6 (List.replicate 6 (0 : ℝ)) }

/-- The noise list of the first parameter (paired with its predicted
entry) that has one — the list whose length sizes the lazily drawn shared
phase array. -/
def firstNoisyPts : List (Param × ℝ) → Option (List (ℝ × ℝ))
  | [] => none
  | (p, _) :: rest =>
    match p.noise with
    | some pts => some pts
    | none => firstNoisyPts rest

/-- Two noisy parameters whose noise lists have lengths 1 and 2: the
shared phase array is drawn with length 1 at the first, and the second's
sinusoid at position 1 indexes out of range. -/
def P10bad : List Param :=
  [⟨"a", "dependent", some [(0, 1)]⟩, ⟨"b", "dependent", some [(0, 1), (0, 1)]⟩]

/-- Parameters where only the first has noise — the precondition of the
claim holds trivially. -/
def P10good : List Param :=
  [⟨"a", "dependent", some [(0, 1)]⟩, ⟨"b", "dependent", none⟩]

/-- Modelled from the spec/claim's words, for comparison with the source
behavior: "a persistent per-parameter random phase offset, drawn once per
Parameter", added to each of that parameter's sinusoid phase arguments —
so parameter `i` uses its own offset `rand i * 2π`. -/
def addNoisePerParam (params : List Param) (rand : ℕ → ℝ) (time : ℝ)
    (next : List ℝ) : List ℝ :=
  ((params.zip next).enum).map (fun ip =>
    match ip.2.1.noise with
    | none => ip.2.2
    | some pts =>
      ip.2.2 + (pts.map (fun pt =>
        Real.sin (rand ip.1 * (2 * Real.pi) + time * 2 * Real.pi * pt.1) * pt.2)).sum)

/-- Two noisy parameters, each with a single sinusoid of frequency 0 and
amplitude 1. -/
def P3 : List Param :=
  [⟨"a", "dependent", some [(0, 1)]⟩, ⟨"b", "dependent", some [(0, 1)]⟩]

/-- A random stream giving `1/4` to draw index 0 and `1/2` to index 1. -/
def rand3 : ℕ → ℝ := fun j => if j = 0 then 1 / 4 else 1 / 2

/-- Apply the (already drawn) shared phase array uniformly to every pair. -/
def applyShared (t : List ℝ) (time : ℝ) : List (Param × ℝ) → Option (List ℝ)
  | [] => some []
  | (p, x) :: rest =>
    match p.noise with
    | none => (applyShared t time rest).map (fun xs => x :: xs)
    | some pts =>
      match noiseSum t time pts with
      | none => none
      | some s => (applyShared t time rest).map (fun xs => (x + s) :: xs)

/-- The amended description of `add_noise`: one shared phase array, drawn
up front (when not already drawn) with the length of the first noisy
parameter's noise list, fixed for the run, applied uniformly to every
noisy parameter. -/
def addNoiseShared (params : List Param) (rand : ℕ → ℝ) (time : ℝ)
    (trand : Option (List ℝ)) (next : List ℝ) : Option (Option (List ℝ) × List ℝ) :=
  if next.length ≤ params.length then
    match trand with
    | some t => (applyShared t time (params.zip next)).map (fun xs => (some t, xs))
    | none =>
      match firstNoisyPts (params.zip next) with
      | none => some (none, (params.zip next).map (fun pr => pr.2))
      | some pts =>
        (applyShared (drawPhases rand pts.length) time (params.zip next)).map
          (fun xs => (some (drawPhases rand pts.length), xs))
  else none

/-- One IMU group of a flight-log record: `{time, p, q, r}`. -/
structure ImuPt where
  time : ℝ
  p : ℝ
  q : ℝ
  r : ℝ

/-- One actuator group: `{throttle, aileron, elevator, rudder}`. -/
structure ActPt where
  throttle : ℝ
  aileron : ℝ
  elevator : ℝ
  rudder : ℝ

/-- One airdata group: airspeed in knots plus the optional pitot scale
correction (the optional wind fields do not affect the claims studied). -/
structure AirPt where
  airspeed_kt : ℝ
  pitot_scale : Option ℝ

/-- One filter/nav group: orientation and NED velocity (the optional gyro
bias fields do not affect the claims studied). -/
structure FilterPt where
  phi : ℝ
  the : ℝ
  psi : ℝ
  vn : ℝ
  ve : ℝ
  vd : ℝ

/-- One time-ordered record of the flight log, with optional keyed groups
as produced by the flight-data iterator. -/
structure Record where
  imu : Option ImuPt
  act : Option ActPt
  air : Option AirPt
  filter : Option FilterPt

/-- Python's `len(record)` test: the record has at least one group. -/
def recNonempty (r : Record) : Bool :=
  r.imu.isSome || r.act.isSome || r.air.isSome || r.filter.isSome

/-- The dt-estimation loop of `build_full_model.py` (lines 65-83): for
every nonempty record carrying an IMU group, append
`imupt["time"] - last_time` (with `last_time` initialized to the record's
own time when still unset) and advance `last_time`.  There is no
`is_flying` test in this loop. -/
def dtDataGo : Option ℝ → List Record → List ℝ
  | _, [] => []
  | last, rec :: rest =>
    if recNonempty rec then
      match rec.imu with
      | some imupt =>
        (imupt.time - last.getD imupt.time) :: dtDataGo (some imupt.time) rest
      | none => dtDataGo last rest
    else dtDataGo last rest

/-- The list of dt samples the median is taken over. -/
def dtData (records : List Record) : List ℝ := dtDataGo none records

/-- The StateManager fields the training loop sets from the record groups
(Modelled from the spec where `lib/state_mgr.py` is concerned). -/
structure SmState where
  time : ℝ
  p : ℝ
  q : ℝ
  r : ℝ
  throttle : ℝ
  aileron : ℝ
  elevator : ℝ
  rudder : ℝ
  airspeed : ℝ
  phi : ℝ
  the : ℝ
  psi : ℝ
  vn : ℝ
  ve : ℝ
  vd : ℝ

/-- The StateManager before any record is processed. -/
def sm0 : SmState :=
  { time := 0, p := 0, q := 0, r := 0, throttle := 0, aileron := 0,
    elevator := 0, rudder := 0, airspeed := 0, phi := 0, the := 0, psi := 0,
    vn := 0, ve := 0, vd := 0 }

/-- One record of the training loop of `build_full_model.py`
(lines 97-141): each present group updates the corresponding StateManager
fields; airspeed is converted from knots and scaled by the optional pitot
correction. -/
def trainStep (sm : SmState) (rec : Record) : SmState :=
  let sm1 :=
    match rec.imu with
    | some i => { sm with time := i.time, p := i.p, q := i.q, r := i.r }
    | none => sm
  let sm2 :=
    match rec.act with
    | some a => { sm1 with throttle := a.throttle, aileron := a.aileron, elevator := a.elevator, rudder := a.rudder }
    | none => sm1
  let sm3 :=
    match rec.air with
    | some a => { sm2 with airspeed := a.airspeed_kt * kt2mps * a.pitot_scale.getD 1 }
    | none => sm2
  match rec.filter with
  | some f => { sm3 with phi := f.phi, the := f.the, psi := f.psi, vn := f.vn, ve := f.ve, vd := f.vd }
  | none => sm3

/-- Modelled from the spec: `StateManager.is_flying` is not under `src/`;
the spec describes it as "a gate (based on airspeed and/or acceleration
magnitude thresholds) excluding ground/taxi phases", modelled here as an
airspeed threshold. -/
def isFlyingThreshold : ℝ := 10

/-- Modelled from the spec: the airborne gate. -/
def is_flying (sm : SmState) : Bool := decide (isFlyingThreshold ≤ sm.airspeed)

/-- Modelled from the spec: the training state vector emitted inside the
gate — qbar-scaled control entries, raw airspeed and rates; the entries
derived by `compute_body_frame_values` (forces, gravity components, flow
angles), which the gating claim does not depend on, are summarized as 0. -/
def trainVec (sm : SmState) : List ℝ :=
  [sm.aileron * qbarOf sm.airspeed, |sm.aileron| * qbarOf sm.airspeed,
   sm.elevator * qbarOf sm.airspeed, sm.rudder * qbarOf sm.airspeed,
   |sm.rudder| * qbarOf sm.airspeed, 0, 0, 0, 0, 0, 0, 0,
   sm.airspeed, 0, 0, 0, sm.p, sm.q, sm.r]

/-- The training loop of `build_full_model.py` (lines 96-147): empty
records are skipped outright; every nonempty record updates the
StateManager, and a state vector is appended to the training set only when
`is_flying()` holds after the update. -/
def trainingPassGo (sm : SmState) : List Record → List (List ℝ)
  | [] => []
  | rec :: rest =>
    if recNonempty rec then
      let sm1 := trainStep sm rec
      if is_flying sm1 then trainVec sm1 :: trainingPassGo sm1 rest
      else trainingPassGo sm1 rest
    else trainingPassGo sm rest

/-- The TrainingSet accumulated from a flight log. -/
def trainingPass (records : List Record) : List (List ℝ) :=
  trainingPassGo sm0 records

/-- The sequence of post-update StateManager states, one per nonempty
record. -/
def scanStates (sm : SmState) : List Record → List SmState
  | [] => []
  | rec :: rest =>
    if recNonempty rec then
      let sm1 := trainStep sm rec
      sm1 :: scanStates sm1 rest
    else scanStates sm rest

/-- A ground record: an IMU sample at time 0 with zero airspeed — not
flying under any positive airspeed threshold. -/
def recGround : Record :=
  { imu := some ⟨0, 0, 0, 0⟩, act := none, air := some ⟨0, none⟩, filter := none }

/-- The StateManager state built by `Simulator.trim_error` (lines 94-104)
at the trial point `xk` before evaluating the model: throttle and control
surfaces from `xk[0..3]`, orientation `(xk[4], xk[5], 0)`, `alpha := xk[5]`,
airdata at the target airspeed, zero wind and gyros, then
`compute_body_frame_values(compute_body_vel=False)`, which recomputes the
flow angles from the stored body velocity (Modelled from the spec where
`lib/state_mgr.py` is concerned; the NED-velocity and wind setters touch
no field the state vector of this model reads). -/
def trimState (target xk0 xk1 xk2 xk3 xk4 xk5 : ℝ) (s : SimState) : SimState :=
  let s1 := { s with throttle := xk0, aileron := xk1, elevator := xk2, rudder := xk3,
                     phi_rad := xk4, the_rad := xk5, psi_rad := 0,
                     sm_alpha := xk5,
                     sm_airspeed := target, sm_qbar := qbarOf target,
                     p := 0, q := 0, r := 0 }
  { s1 with sm_alpha := atan2 s1.sm_bvz s1.sm_bvx,
            sm_beta := atan2 (-s1.sm_bvy) s1.sm_bvx,
            sm_qbar := qbarOf s1.sm_airspeed }

/-- `Simulator.trim_error` (lines 94-123): build the trial state, predict
`next = A @ state`, read the predicted values by name (the source passes
the dependent-length vector to `state2dict`; per the spec the
name-to-value inversion covers "both the full vector and the
dependent-only slice", so the dependent-slice mapping is used), floor the
predicted airspeed at 0, and return the residual list
`[target - asi, thrust - drag, bay, p, q, r]`. -/
def trimError (m : Model) (target xk0 xk1 xk2 xk3 xk4 xk5 : ℝ) (s : SimState) :
    Option (List ℝ) :=
  let st := genStateVector m.params (trimState target xk0 xk1 xk2 xk3 xk4 xk5 s)
  let result := (depNames m).zip (matVec m.A st)
  match lk result "airspeed" with
  | none => none
  | some asi =>
    match lk result "thrust", lk result "drag" with
    | some th, some dr =>
      match lk result "bay" with
      | none => none
      | some bay =>
        match lk result "p", lk result "q", lk result "r" with
        | some p, some q, some r =>
          some [target - (if asi < 0 then 0 else asi), th - dr, bay, p, q, r]
        | _, _, _ => none
    | _, _ => none

/-- `Simulator.trim` (lines 125-135): stores the target airspeed, runs the
external least-squares solver from the fixed initial guess
`[0.5, 0, 0, 0, 0, 0.08]` with `trim_error` as the residual function, and
prints the result fields.  The method has no `return` statement, so the
Python caller receives `None`: at the value level the function returns
nothing, regardless of convergence. -/
def trim (_ : Model) (_ : ℝ) : Option (List ℝ) := none

/-- A trim-compatible model: dependent outputs `airspeed, thrust, drag,
bay, p, q, r`, with `A` predicting `-target`, `0.2*target`, `0.1*target`
and zeros. -/
def M6 : Model :=
  { dt := 0.01
    params := [⟨"airspeed", "dependent", none⟩, ⟨"thrust", "dependent", none⟩,
               ⟨"drag", "dependent", none⟩, ⟨"bay", "dependent", none⟩,
               ⟨"p", "dependent", none⟩, ⟨"q", "dependent", none⟩,
               ⟨"r", "dependent", none⟩]
    A := [[-1, 0, 0, 0, 0, 0, 0], [0.2, 0, 0, 0, 0, 0, 0], [0.1, 0, 0, 0, 0, 0, 0],
          [0, 0, 0, 0, 0, 0, 0], [0, 0, 0, 0, 0, 0, 0], [0, 0, 0, 0, 0, 0, 0],
          [0, 0, 0, 0, 0, 0, 0]] }

/-- Parameters of a tiny model file: one independent, one dependent. -/
def params7 : List Param :=
  [⟨"x", "independent", none⟩, ⟨"y", "dependent", none⟩]

theorem quadrance_nonneg (q : Quat) : 0 ≤ quadrance q := by
  unfold quadrance; positivity

theorem quadrance_qmul (a b : Quat) :
    quadrance (qmul a b) = quadrance a * quadrance b := by
  unfold quadrance qmul; ring

theorem qnorm_qmul (a b : Quat) : qnorm (qmul a b) = qnorm a * qnorm b := by
  unfold qnorm
  rw [quadrance_qmul, Real.sqrt_mul (quadrance_nonneg a)]

theorem quadrance_eul2quat (a b c : ℝ) : quadrance (eul2quat a b c) = 1 := by
  have h1 := Real.sin_sq_add_cos_sq (a / 2)
  have h2 := Real.sin_sq_add_cos_sq (b / 2)
  have h3 := Real.sin_sq_add_cos_sq (c / 2)
  show (_ : ℝ) = 1
  simp only [quadrance, eul2quat]
  have key : (Real.cos (a/2) * Real.cos (b/2) * Real.cos (c/2)
        + Real.sin (a/2) * Real.sin (b/2) * Real.sin (c/2)) ^ 2
      + (Real.sin (a/2) * Real.cos (b/2) * Real.cos (c/2)
        - Real.cos (a/2) * Real.sin (b/2) * Real.sin (c/2)) ^ 2
      + (Real.cos (a/2) * Real.sin (b/2) * Real.cos (c/2)
        + Real.sin (a/2) * Real.cos (b/2) * Real.sin (c/2)) ^ 2
      + (Real.cos (a/2) * Real.cos (b/2) * Real.sin (c/2)
        - Real.sin (a/2) * Real.sin (b/2) * Real.cos (c/2)) ^ 2
      = (Real.sin (a/2) ^ 2 + Real.cos (a/2) ^ 2)
        * ((Real.sin (b/2) ^ 2 + Real.cos (b/2) ^ 2)
          * (Real.sin (c/2) ^ 2 + Real.cos (c/2) ^ 2)) := by ring
  rw [key, h1, h2, h3]; norm_num

theorem qnorm_eul2quat (a b c : ℝ) : qnorm (eul2quat a b c) = 1 := by
  rw [qnorm, quadrance_eul2quat, Real.sqrt_one]

theorem qnorm_nonneg (q : Quat) : 0 ≤ qnorm q := Real.sqrt_nonneg _

theorem qnorm_qscale (k : ℝ) (q : Quat) : qnorm (qscale k q) = |k| * qnorm q := by
  unfold qnorm qscale quadrance
  have : (k * q.w) ^ 2 + (k * q.x) ^ 2 + (k * q.y) ^ 2 + (k * q.z) ^ 2
      = k ^ 2 * (q.w ^ 2 + q.x ^ 2 + q.y ^ 2 + q.z ^ 2) := by ring
  rw [this, Real.sqrt_mul (by positivity), Real.sqrt_sq_eq_abs]

theorem qnorm_qnormalize {q : Quat} (h : qnorm q ≠ 0) : qnorm (qnormalize q) = 1 := by
  rw [qnormalize, qnorm_qscale]
  rw [abs_of_nonneg (div_nonneg zero_le_one (qnorm_nonneg q))]
  field_simp

theorem atan2_of_pos (y x : ℝ) (hx : 0 < x) : atan2 y x = Real.arctan (y / x) := by
  rw [atan2, if_pos hx]

theorem atan2_zero_of_pos (x : ℝ) (hx : 0 < x) : atan2 0 x = 0 := by
  rw [atan2_of_pos _ _ hx, zero_div, Real.arctan_zero]

theorem eul2quat_zero : eul2quat 0 0 0 = ⟨1, 0, 0, 0⟩ := by
  simp [eul2quat]

theorem qmul_id : qmul ⟨1, 0, 0, 0⟩ ⟨1, 0, 0, 0⟩ = ⟨1, 0, 0, 0⟩ := by
  norm_num [qmul]

theorem qnormalize_id : qnormalize ⟨1, 0, 0, 0⟩ = ⟨1, 0, 0, 0⟩ := by
  norm_num [qnormalize, qnorm, quadrance, qscale, Real.sqrt_one]

theorem quat2eul_id : quat2eul ⟨1, 0, 0, 0⟩ = (0, 0, 0) := by
  have h : atan2 0 1 = 0 := atan2_zero_of_pos 1 one_pos
  norm_num [quat2eul, Real.arcsin_zero, h]

theorem qrot_id_zero : qrot ⟨1, 0, 0, 0⟩ (0, 0, 0) = (0, 0, 0) := by
  norm_num [qrot, qmul, qconj]

theorem eval_M1 : update M1 defaultRand resetState = some s1val := by
  have h10 : atan2 0 10 = 0 := atan2_zero_of_pos 10 (by norm_num)
  simp +decide [update, M1, resetState, s1val, genStateVector, genVal, matVec, dotList,
    addNoise, addNoiseGo, depNames, branchOf, resolveAirspeed, resolveVelocity, lk,
    readAccels, finishUpdate, eul2quat_zero, qmul_id, qnormalize_id, quat2eul_id,
    qrot_id_zero, qbarOf, rho, h10]
  norm_num [qrot, qmul, qconj, Prod.ext_iff]

theorem load_M1 : load 0.01 M1.params aflatM1 = some M1 := by rfl

/-- Destructuring one successful `update` step into its stages. -/
theorem update_parts {m : Model} {rand : ℕ → ℝ} {s s' : SimState}
    (h : update m rand s = some s') :
    ∃ (nr : Option (List ℝ) × List ℝ) (V : ℝ) (vr : VelRes) (p q r : ℝ)
      (acc : ℝ × ℝ × ℝ),
      addNoise m.params rand s.time s.trand (matVec m.A (genStateVector m.params s))
          = some nr ∧
      resolveAirspeed ((depNames m).zip nr.2) = some V ∧
      resolveVelocity m s ((depNames m).zip nr.2) V (qbarOf V) = some vr ∧
      lk ((depNames m).zip nr.2) "p" = some p ∧
      lk ((depNames m).zip nr.2) "q" = some q ∧
      lk ((depNames m).zip nr.2) "r" = some r ∧
      s' = finishUpdate m s nr.1 V vr p q r acc.1 acc.2.1 acc.2.2 := by
  simp only [update, Option.bind_eq_some] at h
  obtain ⟨nr, hnr, V, hV, vr, hvr, p, hp, q, hq, r, hr, acc, hacc, hfin⟩ := h
  exact ⟨nr, V, vr, p, q, r, acc, hnr, hV, hvr, hp, hq, hr,
    ((Option.some.injEq _ _).mp hfin).symm⟩

theorem lk_zip_not_mem {keys : List String} {k : String} (hk : k ∉ keys) :
    ∀ vals : List ℝ, lk (keys.zip vals) k = none := by
  induction keys with
  | nil => intro vals; simp [lk]
  | cons a t ih =>
    intro vals
    cases vals with
    | nil => simp [lk]
    | cons v vs =>
      have ha : a ≠ k := fun hak => hk (hak ▸ List.mem_cons_self a t)
      simp only [List.zip_cons_cons, lk, if_neg ha]
      exact ih (fun hm => hk (List.mem_cons_of_mem a hm)) vs

theorem resolveAirspeed_nonneg {result : List (String × ℝ)} {V : ℝ}
    (hk : lk result "airspeed" = none) (h : resolveAirspeed result = some V) :
    0 ≤ V := by
  unfold resolveAirspeed at h
  rw [hk] at h
  rcases hx : lk result "bvx" with _ | x <;> rw [hx] at h <;>
    rcases hy : lk result "bvy" with _ | y <;> rw [hy] at h <;>
      rcases hz : lk result "bvz" with _ | z <;> rw [hz] at h <;>
        simp_all
  exact h ▸ Real.sqrt_nonneg _

/-- C1 is false as stated: on the loaded model `M1` (dependent outputs
`airspeed, p, q, r`, with `A` mapping the reset state's 10 m/s to `-10`),
the first `update` after `reset` records airspeed `-10 < 0` both in
`self.airspeed_mps` and in the trajectory sample (index 1 of the row). -/
theorem claim_C1_counterexample :
    load 0.01 M1.params aflatM1 = some M1 ∧
    (update M1 defaultRand resetState).map SimState.airspeed_mps = some (-10) ∧
    ((update M1 defaultRand resetState).bind (fun s => s.data.head?)).bind
      (fun row => row.get? 1) = some (-10) ∧
    ((-10 : ℝ) < 0) := by
  refine ⟨load_M1, ?_, ?_, by norm_num⟩
  · rw [eval_M1]; rfl
  · rw [eval_M1]; rfl

/-- C1 (amended): the code never clamps the resolved airspeed, so the
invariant holds only for models without a direct `airspeed` dependent
output: there the recorded airspeed is the Euclidean norm of the predicted
body velocity, hence nonnegative at every step; with a direct `airspeed`
output the recorded value is the raw prediction and can be negative. -/
theorem claim_C1_amended (m : Model) (rand : ℕ → ℝ) (s s' : SimState)
    (hna : "airspeed" ∉ depNames m) (h : update m rand s = some s') :
    0 ≤ s'.airspeed_mps := by
  obtain ⟨nr, V, vr, p, q, r, acc, hnr, hV, hvr, hp, hq, hr, hs'⟩ := update_parts h
  have hk : lk ((depNames m).zip nr.2) "airspeed" = none := lk_zip_not_mem hna _
  have h0 : 0 ≤ V := resolveAirspeed_nonneg hk hV
  rw [hs']
  simpa [finishUpdate] using h0

theorem load_M4 : load 0.01 M4.params aflatM4 = some M4 := by rfl

theorem eval_M4 : update M4 defaultRand resetState = some s4val := by
  have h10 : atan2 0 1 = 0 := atan2_zero_of_pos 1 one_pos
  have h11 : atan2 1 1 = Real.pi / 4 := by
    rw [atan2_of_pos 1 1 one_pos]; norm_num [Real.arctan_one]
  have hq : qrot ⟨1, 0, 0, 0⟩ ((1 : ℝ), (0 : ℝ), (1 : ℝ)) = (1, 0, 1) := by
    norm_num [qrot, qmul, qconj]
  simp +decide [update, M4, resetState, s4val, genStateVector, genVal, matVec, dotList,
    addNoise, addNoiseGo, depNames, branchOf, resolveAirspeed, resolveVelocity, lk,
    readAccels, finishUpdate, eul2quat_zero, qmul_id, qnormalize_id, quat2eul_id,
    h10, h11, hq]
  norm_num [h10, h11, hq]

/-- C1 witness: on the loaded model `M4` with no direct `airspeed` output,
one `update` from reset records a nonnegative airspeed. -/
theorem claim_C1_witness :
    ("airspeed" ∉ depNames M4) ∧ 0 ≤ s4val.airspeed_mps :=
  ⟨by decide, claim_C1_amended M4 defaultRand resetState s4val (by decide) eval_M4⟩

/-- C4 is false as stated: on the loaded model `M4` the velocity branch
(b) performs no angle clamping, and the first `update` after `reset`
records `alpha = pi/4 = 45° > 25°` in the trajectory sample (index 9). -/
theorem claim_C4_counterexample :
    load 0.01 M4.params aflatM4 = some M4 ∧
    ((update M4 defaultRand resetState).bind (fun s => s.data.head?)).bind
      (fun row => row.get? 9) = some (Real.pi / 4) ∧
    maxAngle < Real.pi / 4 := by
  refine ⟨load_M4, ?_, ?_⟩
  · rw [eval_M4]; rfl
  · unfold maxAngle d2r
    nlinarith [Real.pi_pos]

theorem maxAngle_pos : 0 < maxAngle := by
  unfold maxAngle d2r; positivity

theorem maxAngle_lt_pi_div_two : maxAngle < Real.pi / 2 := by
  unfold maxAngle d2r; nlinarith [Real.pi_pos]

theorem clampAbs_abs_le {l : ℝ} (hl : 0 ≤ l) (v : ℝ) : |clampAbs l v| ≤ l := by
  unfold clampAbs
  split_ifs with h1 h2
  · rw [abs_of_nonneg hl]
  · rw [abs_neg, abs_of_nonneg hl]
  · rw [abs_le]
    exact ⟨not_lt.mp h2, not_lt.mp h1⟩

theorem neg_pi_div_two_lt_of_abs {a : ℝ} (ha : |a| ≤ maxAngle) :
    -(Real.pi / 2) < a ∧ a < Real.pi / 2 := by
  have h := abs_le.mp ha
  have h2 := maxAngle_lt_pi_div_two
  exact ⟨by linarith, by linarith⟩

theorem cos_pos_of_abs_le {a : ℝ} (ha : |a| ≤ maxAngle) : 0 < Real.cos a := by
  obtain ⟨h1, h2⟩ := neg_pi_div_two_lt_of_abs ha
  exact Real.cos_pos_of_mem_Ioo ⟨h1, h2⟩

theorem abs_arctan_le {t c : ℝ} (hc : 0 ≤ c) (hcp : c < Real.pi / 2)
    (ht : |t| ≤ Real.tan c) : |Real.arctan t| ≤ c := by
  have hpi := Real.pi_pos
  rw [abs_le] at ht ⊢
  constructor
  · have e1 : -c = Real.arctan (Real.tan (-c)) :=
      (Real.arctan_tan (by linarith) (by linarith)).symm
    rw [e1, Real.tan_neg]
    exact Real.arctan_strictMono.monotone ht.1
  · have e2 : Real.arctan (Real.tan c) = c :=
      Real.arctan_tan (by linarith) hcp
    calc Real.arctan t ≤ Real.arctan (Real.tan c) :=
          Real.arctan_strictMono.monotone ht.2
      _ = c := e2

theorem sin_abs_le_sin {b c : ℝ} (hb : |b| ≤ c) (hc : c ≤ Real.pi / 2) :
    |Real.sin b| ≤ Real.sin c := by
  have hb' := abs_le.mp hb
  have h0c : 0 ≤ c := le_trans (abs_nonneg b) hb
  have hmem_b : b ∈ Set.Icc (-(Real.pi / 2)) (Real.pi / 2) :=
    ⟨by linarith, by linarith⟩
  have hmem_c : c ∈ Set.Icc (-(Real.pi / 2)) (Real.pi / 2) :=
    ⟨by linarith, hc⟩
  have hmem_nc : -c ∈ Set.Icc (-(Real.pi / 2)) (Real.pi / 2) :=
    ⟨by linarith, by linarith⟩
  rw [abs_le]
  constructor
  · have := Real.strictMonoOn_sin.monotoneOn hmem_nc hmem_b hb'.1
    rwa [Real.sin_neg] at this
  · exact Real.strictMonoOn_sin.monotoneOn hmem_b hmem_c hb'.2

theorem cos_maxAngle_le_cos {a : ℝ} (ha : |a| ≤ maxAngle) :
    Real.cos maxAngle ≤ Real.cos a := by
  have hpi := Real.pi_pos
  have h : Real.cos maxAngle ≤ Real.cos |a| :=
    Real.cos_le_cos_of_nonneg_of_le_pi (abs_nonneg a)
      (by linarith [maxAngle_lt_pi_div_two]) ha
  rwa [Real.cos_abs] at h

theorem trig_alpha_eq {a V : ℝ} (ha : |a| ≤ maxAngle) (hV : 0 < V) :
    atan2 (Real.sin a * V) (Real.cos a * V) = a := by
  obtain ⟨h1, h2⟩ := neg_pi_div_two_lt_of_abs ha
  have hca : 0 < Real.cos a := cos_pos_of_abs_le ha
  rw [atan2_of_pos _ _ (mul_pos hca hV)]
  have harg : Real.sin a * V / (Real.cos a * V) = Real.sin a / Real.cos a := by
    rw [mul_comm (Real.sin a) V, mul_comm (Real.cos a) V,
      mul_div_mul_left _ _ (ne_of_gt hV)]
  rw [harg, ← Real.tan_eq_sin_div_cos, Real.arctan_tan h1 h2]

theorem trig_beta_bound {a b V : ℝ} (ha : |a| ≤ maxAngle) (hb : |b| ≤ maxAngle)
    (hV : 0 < V) : |atan2 (-(Real.sin b * V)) (Real.cos a * V)| ≤ maxAngle := by
  have hca : 0 < Real.cos a := cos_pos_of_abs_le ha
  rw [atan2_of_pos _ _ (mul_pos hca hV)]
  have harg : -(Real.sin b * V) / (Real.cos a * V) = -(Real.sin b) / Real.cos a := by
    rw [neg_div, neg_div]
    rw [mul_comm (Real.sin b) V, mul_comm (Real.cos a) V,
      mul_div_mul_left _ _ (ne_of_gt hV)]
  rw [harg]
  apply abs_arctan_le maxAngle_pos.le maxAngle_lt_pi_div_two
  rw [abs_div, abs_neg, Real.tan_eq_sin_div_cos]
  have hs : |Real.sin b| ≤ Real.sin maxAngle :=
    sin_abs_le_sin hb maxAngle_lt_pi_div_two.le
  have hcc : Real.cos maxAngle ≤ Real.cos a := cos_maxAngle_le_cos ha
  have hc0 : 0 < Real.cos maxAngle := by
    have := maxAngle_pos
    exact Real.cos_pos_of_mem_Ioo ⟨by linarith [Real.pi_pos], maxAngle_lt_pi_div_two⟩
  have hs0 : 0 ≤ Real.sin maxAngle :=
    Real.sin_nonneg_of_nonneg_of_le_pi maxAngle_pos.le
      (by linarith [maxAngle_lt_pi_div_two, Real.pi_pos])
  rw [abs_of_pos hca]
  exact div_le_div₀ hs0 hs hc0 hcc

/-- Destructuring the trig branch (c) of the velocity resolution. -/
theorem resolveVelocity_trig {m : Model} {s : SimState} {result : List (String × ℝ)}
    {V qbar : ℝ} {vr : VelRes} (hb : branchOf m = some VBranch.trigBased)
    (h : resolveVelocity m s result V qbar = some vr) :
    ∃ al be : ℝ, |al| ≤ maxAngle ∧ |be| ≤ maxAngle ∧
      vr.smbvx = Real.cos al * V ∧ vr.smbvy = Real.sin be * V ∧
      vr.smbvz = Real.sin al * V := by
  unfold resolveVelocity at h
  rw [hb] at h
  dsimp only at h
  rcases hsa : lk result "sin(alpha)" with _ | sa <;> rw [hsa] at h
  · simp at h
  rcases hsb : lk result "sin(beta)" with _ | sb <;> rw [hsb] at h
  · simp at h
  dsimp only at h
  rcases hga : divGuard sa qbar with _ | sa1 <;> rw [hga] at h
  · simp at h
  rcases hgb : divGuard sb qbar with _ | sb1 <;> rw [hgb] at h
  · simp at h
  dsimp only at h
  simp only [Option.some.injEq] at h
  refine ⟨clampAbs maxAngle (Real.arcsin (clampAbs 1 sa1)),
          clampAbs maxAngle (Real.arcsin (clampAbs 1 sb1)),
          clampAbs_abs_le maxAngle_pos.le _, clampAbs_abs_le maxAngle_pos.le _,
          ?_, ?_, ?_⟩ <;> rw [← h]

/-- C4 (amended): the `±25°` clamp is applied only in the trig-based
velocity branch (c); for models taking that branch, whenever an `update`
step succeeds and the resolved airspeed is positive, the recorded angle of
attack and sideslip satisfy `|alpha| ≤ 25°` and `|beta| ≤ 25°`.  (In the
acceleration- and body-velocity branches the recorded angles are raw
`atan2` values with no such clamp — see the counterexample.) -/
theorem claim_C4_amended (m : Model) (rand : ℕ → ℝ) (s s' : SimState)
    (hb : branchOf m = some VBranch.trigBased)
    (h : update m rand s = some s') (hV : 0 < s'.airspeed_mps) :
    |s'.sm_alpha| ≤ maxAngle ∧ |s'.sm_beta| ≤ maxAngle := by
  obtain ⟨nr, V, vr, p, q, r, acc, hnr, hVr, hvr, hp, hq, hr, hs'⟩ := update_parts h
  obtain ⟨al, be, hal, hbe, h1, h2, h3⟩ := resolveVelocity_trig hb hvr
  have hVpos : 0 < V := by
    rw [hs'] at hV
    simpa [finishUpdate] using hV
  rw [hs']
  have hsmA : (finishUpdate m s nr.1 V vr p q r acc.1 acc.2.1 acc.2.2).sm_alpha
      = atan2 vr.smbvz vr.smbvx := by simp [finishUpdate]
  have hsmB : (finishUpdate m s nr.1 V vr p q r acc.1 acc.2.1 acc.2.2).sm_beta
      = atan2 (-vr.smbvy) vr.smbvx := by simp [finishUpdate]
  rw [hsmA, hsmB, h1, h2, h3]
  constructor
  · rw [trig_alpha_eq hal hVpos]
    exact hal
  · exact trig_beta_bound hal hbe hVpos

theorem clampAbs_of_abs_le {l v : ℝ} (h : |v| ≤ l) : clampAbs l v = v := by
  obtain ⟨h1, h2⟩ := abs_le.mp h
  unfold clampAbs
  split_ifs with ha hb
  · linarith
  · linarith
  · rfl

theorem clampAbs_zero {l : ℝ} (hl : 0 ≤ l) : clampAbs l 0 = 0 :=
  clampAbs_of_abs_le (by simpa using hl)

theorem qrot_id (v : ℝ × ℝ × ℝ) : qrot ⟨1, 0, 0, 0⟩ v = v := by
  obtain ⟨a, b, c⟩ := v
  norm_num [qrot, qmul, qconj]

theorem eval_M9p : update M9p defaultRand resetState = some s9val := by
  have h10 : atan2 0 10 = 0 := atan2_zero_of_pos 10 (by norm_num)
  have hq0 : qbarOf 10 ≠ 0 := by norm_num [qbarOf, rho]
  have hdg : divGuard (0 : ℝ) (qbarOf 10) = some 0 := by simp [divGuard, hq0]
  have hc1 : clampAbs 1 (0 : ℝ) = 0 := clampAbs_zero (by norm_num)
  have hcm : clampAbs maxAngle (0 : ℝ) = 0 := clampAbs_zero maxAngle_pos.le
  simp +decide [update, M9p, resetState, s9val, genStateVector, genVal, matVec, dotList,
    addNoise, addNoiseGo, depNames, branchOf, resolveAirspeed, resolveVelocity, lk,
    readAccels, finishUpdate, eul2quat_zero, qmul_id, qnormalize_id, quat2eul_id,
    qrot_id, h10, hdg, hc1, hcm]
  norm_num [h10]

/-- C4 witness: on the trig-branch model `M9p`, one `update` from reset
succeeds with positive resolved airspeed and the recorded angles obey the
`±25°` bound. -/
theorem claim_C4_witness :
    branchOf M9p = some VBranch.trigBased ∧ 0 < s9val.airspeed_mps ∧
    |s9val.sm_alpha| ≤ maxAngle ∧ |s9val.sm_beta| ≤ maxAngle :=
  ⟨by decide, by norm_num [s9val],
    claim_C4_amended M9p defaultRand resetState s9val (by decide) eval_M9p
      (by norm_num [s9val])⟩

/-- C5 is false as stated: on `M5` the body-acceleration outputs are
present in the predicted dependent state, yet `update` takes branch (b)
(body velocity), because the source guards branch (a) by
`"bax" in result and "airspeed" in result`. -/
theorem claim_C5_counterexample :
    ("bax" ∈ depNames M5) ∧ branchOf M5 = some VBranch.velocityBased ∧
    (some VBranch.velocityBased ≠ some VBranch.accelBased) := by decide

/-- C5 (amended): the branch priority is (a) then (b) then (c), but
branch (a) is selected exactly when both direct body-acceleration outputs
and a direct airspeed output are present; (b) when (a)'s condition fails
and body-velocity outputs are present; (c) when both fail and
`sin(alpha)` is present. -/
theorem claim_C5_amended (m : Model) :
    (branchOf m = some VBranch.accelBased ↔
      ("bax" ∈ depNames m ∧ "airspeed" ∈ depNames m)) ∧
    (branchOf m = some VBranch.velocityBased ↔
      (¬("bax" ∈ depNames m ∧ "airspeed" ∈ depNames m) ∧ "bvx" ∈ depNames m)) ∧
    (branchOf m = some VBranch.trigBased ↔
      (¬("bax" ∈ depNames m ∧ "airspeed" ∈ depNames m) ∧ "bvx" ∉ depNames m ∧
        "sin(alpha)" ∈ depNames m)) := by
  unfold branchOf
  split_ifs with h1 h2 h3 <;> simp_all [List.contains]

/-- In the trig branch, a zero dynamic pressure makes the division fail. -/
theorem resolveVelocity_trig_zero {m : Model} {s : SimState}
    {result : List (String × ℝ)} {V : ℝ}
    (hb : branchOf m = some VBranch.trigBased) :
    resolveVelocity m s result V 0 = none := by
  unfold resolveVelocity
  rw [hb]
  dsimp only
  rcases lk result "sin(alpha)" with _ | sa
  · rfl
  rcases lk result "sin(beta)" with _ | sb
  · rfl
  simp [divGuard]

/-- C9: in the trig-based branch the predicted `sin(alpha)`/`sin(beta)`
outputs are divided by `qbar` with no zero guard; whenever the resolved
airspeed of the step is 0 (so `qbar = 0.5*rho*0^2 = 0`), the update step
hits the division's error branch and fails. -/
theorem claim_C9 (m : Model) (rand : ℕ → ℝ) (s : SimState)
    (hb : branchOf m = some VBranch.trigBased)
    (hV : resolveAirspeedM m rand s = some 0) :
    update m rand s = none := by
  unfold resolveAirspeedM at hV
  rw [Option.bind_eq_some] at hV
  obtain ⟨nr, hnr, hres⟩ := hV
  unfold update
  rw [hnr, Option.some_bind', hres, Option.some_bind']
  have h0 : qbarOf 0 = 0 := by norm_num [qbarOf]
  rw [h0, resolveVelocity_trig_zero hb]
  rfl

theorem eval_M9z_air : resolveAirspeedM M9z defaultRand resetState = some 0 := by
  simp +decide [resolveAirspeedM, M9z, resetState, genStateVector, genVal, matVec,
    dotList, addNoise, addNoiseGo, depNames, resolveAirspeed, lk, List.replicate]

/-- C9 witness: on `M9z` the resolved airspeed after reset is 0 and the
update step fails at the division. -/
theorem claim_C9_witness : update M9z defaultRand resetState = none :=
  claim_C9 M9z defaultRand resetState (by decide) eval_M9z_air

theorem finishUpdate_ned2body (m : Model) (s : SimState) (t : Option (List ℝ))
    (V : ℝ) (vr : VelRes) (p q r ax ay az : ℝ) :
    (finishUpdate m s t V vr p q r ax ay az).ned2body
      = qnormalize (qmul s.ned2body (eul2quat (p * m.dt) (q * m.dt) (r * m.dt))) := by
  simp [finishUpdate]

/-- One update step preserves unit norm of the orientation quaternion. -/
theorem update_qnorm {m : Model} {rand : ℕ → ℝ} {s s' : SimState}
    (h : update m rand s = some s') (hq : qnorm s.ned2body = 1) :
    qnorm s'.ned2body = 1 := by
  obtain ⟨nr, V, vr, p, q, r, acc, _, _, _, _, _, _, hs'⟩ := update_parts h
  rw [hs', finishUpdate_ned2body]
  have h1 : qnorm (qmul s.ned2body (eul2quat (p * m.dt) (q * m.dt) (r * m.dt))) = 1 := by
    rw [qnorm_qmul, hq, qnorm_eul2quat]; ring
  exact qnorm_qnormalize (by rw [h1]; norm_num)

/-- The orientation quaternion has unit norm along every run from reset. -/
theorem run_qnorm (m : Model) (rand : ℕ → ℝ) :
    ∀ n s, run m rand n = some s → qnorm s.ned2body = 1 := by
  intro n
  induction n with
  | zero =>
    intro s h
    have hs : s = resetState := by
      simpa [run] using h.symm
    rw [hs]
    exact qnorm_eul2quat 0 0 0
  | succ n ih =>
    intro s h
    rw [run, Option.bind_eq_some] at h
    obtain ⟨s0, hs0, hup⟩ := h
    exact update_qnorm hup (ih s0 hs0)

/-- C8: at every update step the attitude integration composes the
small-angle rotation `eul2quat (p*dt, q*dt, r*dt)` with the orientation
quaternion and renormalizes, so after every step of every run from reset
the quaternion norm is within `1e-6` of 1 (it is exactly 1 in the real
model). -/
theorem claim_C8 (m : Model) (rand : ℕ → ℝ) (n : ℕ) (s : SimState)
    (h : run m rand n = some s) : |qnorm s.ned2body - 1| ≤ 1e-6 := by
  rw [run_qnorm m rand n s h]
  norm_num

/-- C8 witness: after one step of `M1` from reset the quaternion norm is
within `1e-6` of 1. -/
theorem claim_C8_witness : |qnorm s1val.ned2body - 1| ≤ 1e-6 :=
  claim_C8 M1 defaultRand 1 s1val (by simp [run, eval_M1])

theorem drawPhases_length (rand : ℕ → ℝ) (n : ℕ) : (drawPhases rand n).length = n := by
  simp [drawPhases]

theorem noiseSumGo_isSome (t : List ℝ) (time : ℝ) :
    ∀ (pts : List (ℝ × ℝ)) (j : ℕ), j + pts.length ≤ t.length →
      (noiseSumGo t time j pts).isSome := by
  intro pts
  induction pts with
  | nil => intro j _; simp [noiseSumGo]
  | cons pt rest ih =>
    intro j hj
    have hlt : j < t.length := by
      simp only [List.length_cons] at hj; omega
    have hget : ∃ phase, t.get? j = some phase := by
      cases hg : t.get? j with
      | none =>
        have := List.get?_eq_none.mp hg
        omega
      | some phase => exact ⟨phase, rfl⟩
    obtain ⟨phase, hget⟩ := hget
    simp only [noiseSumGo, hget, Option.isSome_map']
    apply ih
    simp only [List.length_cons] at hj
    omega

theorem noiseSum_isSome {t : List ℝ} {time : ℝ} {pts : List (ℝ × ℝ)}
    (h : pts.length ≤ t.length) : (noiseSum t time pts).isSome :=
  noiseSumGo_isSome t time pts 0 (by omega)

theorem addNoiseGo_some_isSome (rand : ℕ → ℝ) (time : ℝ) (t : List ℝ) :
    ∀ pairs : List (Param × ℝ),
      (∀ pr ∈ pairs, ∀ pts, pr.1.noise = some pts → pts.length ≤ t.length) →
      (addNoiseGo rand time (some t) pairs).isSome := by
  intro pairs
  induction pairs with
  | nil => intro _; simp [addNoiseGo]
  | cons pr rest ih =>
    intro h
    obtain ⟨p, x⟩ := pr
    cases hn : p.noise with
    | none =>
      simp only [addNoiseGo, hn, Option.isSome_map']
      exact ih (fun pr hpr => h pr (List.mem_cons_of_mem _ hpr))
    | some pts =>
      have hlen : pts.length ≤ t.length :=
        h (p, x) (List.mem_cons_self _ _) pts hn
      obtain ⟨s, hs⟩ := Option.isSome_iff_exists.mp
        (@noiseSum_isSome t time pts hlen)
      simp only [addNoiseGo, hn, Option.getD_some, hs, Option.isSome_map']
      exact ih (fun pr hpr => h pr (List.mem_cons_of_mem _ hpr))

theorem addNoiseGo_none_isSome (rand : ℕ → ℝ) (time : ℝ) :
    ∀ pairs : List (Param × ℝ),
      (∀ L, firstNoisyPts pairs = some L →
        ∀ pr ∈ pairs, ∀ pts, pr.1.noise = some pts → pts.length ≤ L.length) →
      (addNoiseGo rand time none pairs).isSome := by
  intro pairs
  induction pairs with
  | nil => intro _; simp [addNoiseGo]
  | cons pr rest ih =>
    intro h
    obtain ⟨p, x⟩ := pr
    cases hn : p.noise with
    | none =>
      simp only [addNoiseGo, hn, Option.isSome_map']
      apply ih
      intro L hL pr2 hpr2 pts2 hpts2
      have hfirst : firstNoisyPts ((p, x) :: rest) = some L := by
        simp [firstNoisyPts, hn, hL]
      exact h L hfirst pr2 (List.mem_cons_of_mem _ hpr2) pts2 hpts2
    | some pts =>
      have hfirst : firstNoisyPts ((p, x) :: rest) = some pts := by
        simp [firstNoisyPts, hn]
      have hbound := h pts hfirst
      have hlen : pts.length ≤ (drawPhases rand pts.length).length := by
        rw [drawPhases_length]
      obtain ⟨s, hs⟩ := Option.isSome_iff_exists.mp
        (@noiseSum_isSome (drawPhases rand pts.length) time pts hlen)
      simp only [addNoiseGo, hn, Option.getD_none, hs, Option.isSome_map']
      apply addNoiseGo_some_isSome
      intro pr2 hpr2 pts2 hpts2
      rw [drawPhases_length]
      exact hbound pr2 (List.mem_cons_of_mem _ hpr2) pts2 hpts2

/-- C10: `add_noise` lazily draws a single shared phase array sized to
the first noisy parameter's noise list and indexes it for every noisy
parameter; it is well-defined whenever no parameter's noise list is
longer than the first noisy one's, and fails (out-of-range phase lookup)
otherwise — witnessed by `P10bad`, where the second parameter's noise
list is longer than the first's. -/
theorem claim_C10 :
    (∀ (params : List Param) (rand : ℕ → ℝ) (time : ℝ) (next : List ℝ),
      next.length ≤ params.length →
      (∀ L, firstNoisyPts (params.zip next) = some L →
        ∀ pr ∈ params.zip next, ∀ pts, pr.1.noise = some pts → pts.length ≤ L.length) →
      (addNoise params rand time none next).isSome) ∧
    addNoise P10bad defaultRand 0 none [0, 0] = none := by
  constructor
  · intro params rand time next hlen h
    unfold addNoise
    rw [if_pos hlen]
    exact addNoiseGo_none_isSome rand time _ h
  · simp +decide [addNoise, addNoiseGo, noiseSum, noiseSumGo, drawPhases, P10bad,
      List.range_succ]

/-- C10 witness: with only the first parameter noisy, the precondition
holds and `add_noise` succeeds. -/
theorem claim_C10_witness : (addNoise P10good defaultRand 0 none [0, 0]).isSome :=
  claim_C10.1 P10good defaultRand 0 [0, 0] (by norm_num [P10good])
    (by
      intro L hL pr hpr pts hpts
      simp only [P10good, List.zip_cons_cons, List.zip_nil_right, List.zip_nil_left,
        firstNoisyPts, List.mem_cons, List.mem_singleton,
        List.not_mem_nil] at hL hpr
      rcases hpr with h1 | h2 <;> simp_all)

/-- C3 is false as stated: the source draws a single shared phase array at
the first noisy parameter (here of length 1, containing `π/2`) and reuses
entry 0 of that same array for the second parameter: both injections are
`sin(π/2) = 1`.  Per-parameter offsets drawn once per Parameter (the
claim's reading) would instead give the second parameter its own offset
`π`, injecting `sin(π) = 0`; the two behaviors differ on this input. -/
theorem claim_C3_counterexample :
    addNoise P3 rand3 0 none [0, 0] = some (some [Real.pi / 2], [1, 1]) ∧
    addNoisePerParam P3 rand3 0 [0, 0] = [1, 0] ∧
    (([1, 1] : List ℝ) ≠ [1, 0]) := by
  have harg : ((4 : ℝ)⁻¹) * (2 * Real.pi) = Real.pi / 2 := by ring
  have harg2 : ((2 : ℝ)⁻¹) * (2 * Real.pi) = Real.pi := by ring
  have hs1 : Real.sin ((4 : ℝ)⁻¹ * (2 * Real.pi)) = 1 := by
    rw [harg, Real.sin_pi_div_two]
  have hs2 : Real.sin ((2 : ℝ)⁻¹ * (2 * Real.pi)) = 0 := by
    rw [harg2, Real.sin_pi]
  refine ⟨?_, ?_, by simp⟩
  · simp +decide [addNoise, addNoiseGo, noiseSum, noiseSumGo, drawPhases, P3, rand3,
      List.range_succ, harg, hs1, Real.sin_pi_div_two]
  · simp +decide [addNoisePerParam, P3, rand3, List.enum, harg, harg2, hs1, hs2,
      Real.sin_pi_div_two, Real.sin_pi]

theorem addNoiseGo_some_eq (rand : ℕ → ℝ) (time : ℝ) (t : List ℝ) :
    ∀ pairs : List (Param × ℝ),
      addNoiseGo rand time (some t) pairs
        = (applyShared t time pairs).map (fun xs => (some t, xs)) := by
  intro pairs
  induction pairs with
  | nil => simp [addNoiseGo, applyShared]
  | cons pr rest ih =>
    obtain ⟨p, x⟩ := pr
    cases hn : p.noise with
    | none =>
      simp only [addNoiseGo, applyShared, hn, ih]
      cases applyShared t time rest <;> simp
    | some pts =>
      simp only [addNoiseGo, applyShared, hn, Option.getD_some]
      cases noiseSum t time pts with
      | none => rfl
      | some s =>
        simp only [ih]
        cases applyShared t time rest <;> simp

theorem addNoiseGo_none_eq (rand : ℕ → ℝ) (time : ℝ) :
    ∀ pairs : List (Param × ℝ),
      addNoiseGo rand time none pairs
        = match firstNoisyPts pairs with
          | none => some (none, pairs.map (fun pr => pr.2))
          | some pts =>
            (applyShared (drawPhases rand pts.length) time pairs).map
              (fun xs => (some (drawPhases rand pts.length), xs)) := by
  intro pairs
  induction pairs with
  | nil => simp [addNoiseGo, firstNoisyPts]
  | cons pr rest ih =>
    obtain ⟨p, x⟩ := pr
    cases hn : p.noise with
    | none =>
      simp only [addNoiseGo, firstNoisyPts, hn, ih]
      cases hf : firstNoisyPts rest with
      | none => simp [applyShared, hn]
      | some pts =>
        simp only [applyShared, hn]
        cases applyShared (drawPhases rand pts.length) time rest <;> simp
    | some pts =>
      simp only [addNoiseGo, firstNoisyPts, hn, Option.getD_none]
      cases hns : noiseSum (drawPhases rand pts.length) time pts with
      | none => simp [applyShared, hn, hns]
      | some s =>
        simp only [addNoiseGo_some_eq, applyShared, hn, hns]
        cases applyShared (drawPhases rand pts.length) time rest <;> simp

/-- C3 (amended): during one run, `add_noise` keeps a single shared phase
array: it is drawn lazily, once, at the first noisy parameter encountered
(sized to that parameter's noise list), persists unchanged once drawn, and
entry `j` of that same shared array is added to the `j`-th sinusoid phase
argument of every noisy parameter. -/
theorem claim_C3_amended (params : List Param) (rand : ℕ → ℝ) (time : ℝ)
    (trand : Option (List ℝ)) (next : List ℝ) :
    addNoise params rand time trand next
      = addNoiseShared params rand time trand next := by
  unfold addNoise addNoiseShared
  by_cases hlen : next.length ≤ params.length
  · rw [if_pos hlen, if_pos hlen]
    cases trand with
    | none => exact addNoiseGo_none_eq rand time _
    | some t => exact addNoiseGo_some_eq rand time t _
  · rw [if_neg hlen, if_neg hlen]

/-- C2 is false as stated: the dt-estimation loop has no `is_flying`
test — the ground record `recGround` contributes a dt sample even though
`is_flying` is false at it (the training pass, by contrast, appends
nothing). -/
theorem claim_C2_counterexample :
    dtData [recGround] = [0] ∧
    is_flying (trainStep sm0 recGround) = false ∧
    trainingPass [recGround] = [] := by
  have hfly : is_flying (trainStep sm0 recGround) = false := by
    simp [is_flying, trainStep, recGround, sm0, isFlyingThreshold, kt2mps]
  have hne : recNonempty recGround = true := by simp [recNonempty, recGround]
  refine ⟨?_, hfly, ?_⟩
  · simp [dtData, dtDataGo, recGround, recNonempty]
  · simp [trainingPass, trainingPassGo, hne, hfly]

theorem trainingPassGo_eq (records : List Record) :
    ∀ sm, trainingPassGo sm records
      = ((scanStates sm records).filter (fun st => is_flying st)).map trainVec := by
  induction records with
  | nil => intro sm; simp [trainingPassGo, scanStates]
  | cons rec rest ih =>
    intro sm
    by_cases hne : recNonempty rec
    · simp only [trainingPassGo, scanStates, hne, if_true]
      cases hfly : is_flying (trainStep sm rec) with
      | true => simp [hfly, ih, List.filter]
      | false => simp [hfly, ih, List.filter]
    · simp only [trainingPassGo, scanStates, hne, if_false, Bool.not_eq_true] at hne ⊢
      simp [hne, ih]

theorem dtDataGo_length (records : List Record) :
    ∀ last, (dtDataGo last records).length
      = (records.filter (fun r => recNonempty r && r.imu.isSome)).length := by
  induction records with
  | nil => intro last; simp [dtDataGo]
  | cons rec rest ih =>
    intro last
    by_cases hne : recNonempty rec
    · cases hi : rec.imu with
      | some imupt =>
        simp [dtDataGo, hne, hi, List.filter, ih]
      | none =>
        simp [dtDataGo, hne, hi, List.filter, ih]
    · simp only [Bool.not_eq_true] at hne
      simp [dtDataGo, hne, List.filter, ih]

/-- C2 (amended): the `is_flying` gate applies only to the training pass —
a state vector is appended exactly at the nonempty records whose updated
state is flying — while the dt-estimation pass counts every nonempty
record with an IMU group, flying or not. -/
theorem claim_C2_amended (records : List Record) :
    trainingPass records
      = ((scanStates sm0 records).filter (fun st => is_flying st)).map trainVec ∧
    (dtData records).length
      = (records.filter (fun r => recNonempty r && r.imu.isSome)).length :=
  ⟨trainingPassGo_eq records sm0, dtDataGo_length records none⟩

/-- C6 is false as stated: `trim` does not return the best iterate to the
caller — the method body ends without a `return`, so the caller receives
`None` (here: no residual/iterate value at all) even though the solver ran. -/
theorem claim_C6_counterexample : trim M6 15 = none := rfl

/-- C6 (amended): `trim` performs a least-squares solve over the six
unknowns (throttle, aileron, elevator, rudder, phi, theta) whose residual
vector is (airspeed-tracking error at the target with the predicted
airspeed floored at 0, thrust minus drag, lateral acceleration `bay`, `p`,
`q`, `r`), all read from the predicted next state; non-convergence is
reported (printed), not raised, but the best iterate is only printed —
`trim` itself returns `None` to the caller. -/
theorem claim_C6_amended :
    (∀ (m : Model) (target xk0 xk1 xk2 xk3 xk4 xk5 : ℝ) (s : SimState)
      (errs : List ℝ),
      trimError m target xk0 xk1 xk2 xk3 xk4 xk5 s = some errs →
      ∃ asi th dr bay p q r : ℝ,
        (let result := (depNames m).zip (matVec m.A (genStateVector m.params
          (trimState target xk0 xk1 xk2 xk3 xk4 xk5 s)))
         lk result "airspeed" = some asi ∧ lk result "thrust" = some th ∧
         lk result "drag" = some dr ∧ lk result "bay" = some bay ∧
         lk result "p" = some p ∧ lk result "q" = some q ∧
         lk result "r" = some r) ∧
        errs = [target - (if asi < 0 then 0 else asi), th - dr, bay, p, q, r]) ∧
    (∀ (m : Model) (target : ℝ), trim m target = none) := by
  constructor
  · intro m target xk0 xk1 xk2 xk3 xk4 xk5 s errs h
    unfold trimError at h
    dsimp only at h
    rcases h1 : lk ((depNames m).zip (matVec m.A (genStateVector m.params
        (trimState target xk0 xk1 xk2 xk3 xk4 xk5 s)))) "airspeed" with _ | asi <;>
      rw [h1] at h
    · simp at h
    rcases h2 : lk ((depNames m).zip (matVec m.A (genStateVector m.params
        (trimState target xk0 xk1 xk2 xk3 xk4 xk5 s)))) "thrust" with _ | th <;>
      rw [h2] at h
    · simp at h
    rcases h3 : lk ((depNames m).zip (matVec m.A (genStateVector m.params
        (trimState target xk0 xk1 xk2 xk3 xk4 xk5 s)))) "drag" with _ | dr <;>
      rw [h3] at h
    · simp at h
    rcases h4 : lk ((depNames m).zip (matVec m.A (genStateVector m.params
        (trimState target xk0 xk1 xk2 xk3 xk4 xk5 s)))) "bay" with _ | bay <;>
      rw [h4] at h
    · simp at h
    rcases h5 : lk ((depNames m).zip (matVec m.A (genStateVector m.params
        (trimState target xk0 xk1 xk2 xk3 xk4 xk5 s)))) "p" with _ | p <;>
      rw [h5] at h
    · simp at h
    rcases h6 : lk ((depNames m).zip (matVec m.A (genStateVector m.params
        (trimState target xk0 xk1 xk2 xk3 xk4 xk5 s)))) "q" with _ | q <;>
      rw [h6] at h
    · simp at h
    rcases h7 : lk ((depNames m).zip (matVec m.A (genStateVector m.params
        (trimState target xk0 xk1 xk2 xk3 xk4 xk5 s)))) "r" with _ | r <;>
      rw [h7] at h
    · simp at h
    dsimp only at h
    simp only [Option.some.injEq] at h
    exact ⟨asi, th, dr, bay, p, q, r, ⟨h1, h2, h3, h4, h5, h6, h7⟩, h.symm⟩
  · intro m target; rfl

theorem eval_trimError_M6 :
    trimError M6 15 0.5 0 0 0 0 0.08 resetState = some [15, 1.5, 0, 0, 0, 0] := by
  simp +decide [trimError, trimState, M6, resetState, genStateVector, genVal, matVec,
    dotList, depNames, lk]
  norm_num

/-- C6 witness: on `M6` at the target airspeed 15 the residual vector has
exactly the six stated components, with the predicted (negative) airspeed
floored at 0. -/
theorem claim_C6_witness :
    ∃ asi th dr bay p q r : ℝ,
      (let result := (depNames M6).zip (matVec M6.A (genStateVector M6.params
        (trimState 15 0.5 0 0 0 0 0.08 resetState)))
       lk result "airspeed" = some asi ∧ lk result "thrust" = some th ∧
       lk result "drag" = some dr ∧ lk result "bay" = some bay ∧
       lk result "p" = some p ∧ lk result "q" = some q ∧
       lk result "r" = some r) ∧
      ([15, 1.5, 0, 0, 0, 0] : List ℝ)
        = [15 - (if asi < 0 then 0 else asi), th - dr, bay, p, q, r] :=
  claim_C6_amended.1 M6 15 0.5 0 0 0 0 0.08 resetState [15, 1.5, 0, 0, 0, 0]
    eval_trimError_M6

/-- C7: `load` fails fast (the reshape raises, no model is returned)
whenever the flattened `A` has length different from
`dependent_count * total_count`; otherwise it returns a model whose `A`
has `dependent_count` rows of `total_count` entries each, row-major, with
columns in the file's parameter order: entry `(i, j)` is
`A_flat[i * cols + j]`. -/
theorem claim_C7 :
    (∀ (dt : ℝ) (params : List Param) (aflat : List ℝ),
      aflat.length ≠ depCount params * params.length →
      load dt params aflat = none) ∧
    (∀ (dt : ℝ) (params : List Param) (aflat : List ℝ),
      aflat.length = depCount params * params.length →
      ∃ M : Model, load dt params aflat = some M ∧ M.dt = dt ∧
        M.params = params ∧ M.A.length = depCount params ∧
        (∀ row ∈ M.A, row.length = params.length) ∧
        (∀ i j : ℕ, i < depCount params → j < params.length →
          (M.A.getD i []).getD j 0 = aflat.getD (i * params.length + j) 0)) := by
  constructor
  · intro dt params aflat h
    unfold load
    rw [if_neg h]
  · intro dt params aflat h
    refine ⟨⟨dt, params,
      (List.range (depCount params)).map (fun i =>
        (List.range params.length).map (fun j =>
          aflat.getD (i * params.length + j) 0))⟩, ?_, rfl, rfl, ?_, ?_, ?_⟩
    · unfold load
      rw [if_pos h]
    · simp
    · intro row hrow
      simp only [List.mem_map, List.mem_range] at hrow
      obtain ⟨i, _, hi⟩ := hrow
      rw [← hi]
      simp
    · intro i j hi hj
      have h1 : ((List.range (depCount params)).map (fun i =>
          (List.range params.length).map (fun j =>
            aflat.getD (i * params.length + j) 0))).getD i []
          = (List.range params.length).map (fun j =>
              aflat.getD (i * params.length + j) 0) := by
        rw [List.getD_eq_getElem?_getD, List.getElem?_map, List.getElem?_range hi]
        rfl
      rw [h1, List.getD_eq_getElem?_getD, List.getElem?_map, List.getElem?_range hj]
      rfl

/-- C7 witness: with 1 dependent row and 2 columns, a 3-element `A` is
rejected and a 2-element `A` loads with the stated shape and entries. -/
theorem claim_C7_witness :
    load 0.01 params7 [1, 2, 3] = none ∧
    (∃ M : Model, load 0.01 params7 [1, 2] = some M ∧ M.dt = 0.01 ∧
      M.params = params7 ∧ M.A.length = depCount params7 ∧
      (∀ row ∈ M.A, row.length = params7.length) ∧
      (∀ i j : ℕ, i < depCount params7 → j < params7.length →
        (M.A.getD i []).getD j 0
          = ([1, 2] : List ℝ).getD (i * params7.length + j) 0)) :=
  ⟨claim_C7.1 0.01 params7 [1, 2, 3] (by decide),
   claim_C7.2 0.01 params7 [1, 2] (by decide)⟩
